import Mathlib

/-!
Verification of the heliopy data pipeline (cluster.py and messenger.py).

Datetimes are modelled as natural numbers counting microseconds since
1970-01-01T00:00:00; a calendar date is the corresponding day index
(microseconds divided by the day length).  Python `time.max` is the last
microsecond of a day.  Data frames are association lists from a timestamp
to a value.  The external collaborators that are not part of the sources
(heliopy.time.daysplitinterval, helper.timefilter, helper.cdf2df,
helper.load) are modelled from the specification; each such definition is
marked in its doc comment.
-/

namespace Heliopy

/-- Number of microseconds in one calendar day. -/
def dayLen : Nat := 86400000000

theorem dayLen_pos : 0 < dayLen := by decide

/-- The calendar date (day index) of a datetime, like Python `datetime.date()`. -/
def dateOf (t : Nat) : Nat := t / dayLen

/-- Modelled from the spec: `heliopy.time.daysplitinterval` is not among the
sources.  Per the spec it partitions a time interval into the ordered sequence
of calendar days that intersect it, ascending, each day exactly once, and an
empty interval on a single day still yields that one day. -/
def daysplitinterval (s e : Nat) : List Nat :=
  if s = e then [dateOf s]
  else List.range' (dateOf s) (dateOf (e - 1) + 1 - dateOf s)

/-- Left-pad a numeral to two digits, like Python `str(n).zfill(2)`. -/
def zfill2 (n : Nat) : String :=
  if n < 10 then "0" ++ toString n else toString n

/-- Convert a day index (days since 1970-01-01) to a `(year, month, day)`
triple of the proleptic Gregorian calendar. -/
def civilFromDays (z0 : Nat) : Nat × Nat × Nat :=
  let z := z0 + 719468
  let era := z / 146097
  let doe := z % 146097
  let yoe := (doe - doe / 1460 + doe / 36524 - doe / 146096) / 365
  let y0 := yoe + era * 400
  let doy := doe - (365 * yoe + yoe / 4 - yoe / 100)
  let mp := (5 * doy + 2) / 153
  let dd := doy - (153 * mp + 2) / 5 + 1
  let mm := if mp < 10 then mp + 3 else mp - 9
  (if mm ≤ 2 then y0 + 1 else y0, mm, dd)

/-- `str(date.year) + str(date.month).zfill(2) + str(date.day).zfill(2)`,
the `YYYYMMDD` date part used for per-day filenames. -/
def ymdStr (d : Nat) : String :=
  let c := civilFromDays d
  toString c.1 ++ zfill2 c.2.1 ++ zfill2 c.2.2

/-- `strftime` with the cluster archive time format `%Y-%m-%dT%H:%M:%SZ`. -/
def cdaFmt (t : Nat) : String :=
  let c := civilFromDays (dateOf t)
  let u := t % dayLen
  toString c.1 ++ "-" ++ zfill2 c.2.1 ++ "-" ++ zfill2 c.2.2 ++ "T" ++
    zfill2 (u / 3600000000) ++ ":" ++ zfill2 (u / 60000000 % 60) ++ ":" ++
    zfill2 (u / 1000000 % 60) ++ "Z"

/-- A value of a `cdfkeys` mapping: in the Python sources it is either a
single output column name or a list of output column names. -/
inductive CdfVal
  | str (s : String)
  | strs (l : List String)
  deriving DecidableEq, Repr

/-- Whether a mapping value is the timestamp sentinel, Python `value == "Time"`. -/
def isTimeSentinel : CdfVal → Bool
  | .str s => s == "Time"
  | .strs _ => false

/-- The loop of `_load` lines 67-70: the first mapping key whose value is the
timestamp sentinel, if any. -/
def findIndexKey (keys : List (String × CdfVal)) : Option String :=
  (keys.find? (fun kv => isTimeSentinel kv.2)).map Prod.fst

/-- The `cdfkeys` dictionary built by `peace_moments` (cluster.py lines
197-208), insertion order preserved. -/
def peaceKeys (probe : String) : List (String × CdfVal) :=
  [("Data_Density__C" ++ probe ++ "_CP_PEA_MOMENTS", .str "n_e"),
   ("Data_HeatFlux_GSE__C" ++ probe ++ "_CP_PEA_MOMENTS",
      .strs ["qe_x", "qe_y", "qe_z"]),
   ("Data_Temperature_ComponentParallelToMagField__C" ++ probe ++
      "_CP_PEA_MOMENTS", .str "Te_par"),
   ("Data_Temperature_ComponentPerpendicularToMagField__C" ++ probe ++
      "_...MOMENTS", .str "Te_perp"),
   ("Data_Velocity_GSE__C" ++ probe ++ "_CP_PEA_MOMENTS",
      .strs ["ve_x", "ve_y", "ve_z"]),
   ("time_tags__C" ++ probe ++ "_CP_PEA_MOMENTS", .str "Time")]

/-- A decoded data frame: rows as `(timestamp, value)` pairs. -/
abbrev Frame := List (Nat × Int)

/-- Insert a row into a list sorted by timestamp, keeping rows with an equal
timestamp before the inserted one (so later frames land after earlier ones). -/
def tinsert (r : Nat × Int) : List (Nat × Int) → List (Nat × Int)
  | [] => [r]
  | x :: xs => if r.1 < x.1 then r :: x :: xs else x :: tinsert r xs

/-- Stable insertion sort of rows by timestamp, processing rows in order. -/
def tsort (l : List (Nat × Int)) : List (Nat × Int) :=
  l.foldl (fun acc r => tinsert r acc) []

/-- Collapse runs of rows sharing a timestamp, keeping the last row of each
run (last-write-wins). -/
def dedupLast : List (Nat × Int) → List (Nat × Int)
  | [] => []
  | [x] => [x]
  | x :: y :: xs =>
    if x.1 = y.1 then dedupLast (y :: xs) else x :: dedupLast (y :: xs)

/-- Modelled from the spec: the pure part of `helper.timefilter` (not among
the sources).  Concatenates the per-day frames, keeps rows inside the
half-open request interval, sorts ascending by timestamp and collapses
duplicate timestamps last-write-wins. -/
def mergeFrames (frames : List Frame) (s e : Nat) : Frame :=
  dedupLast (tsort ((frames.flatten).filter (fun r => s ≤ r.1 && r.1 < e)))

/-- Modelled from the spec: `helper.timefilter` fails with the no-data error
when the input frame sequence is empty, else merges. -/
def timefilter (frames : List Frame) (s e : Nat) : Except Unit Frame :=
  if frames = [] then .error () else .ok (mergeFrames frames s e)

/-- The environment a run of `_load` observes: configuration and the
per-day outcome of each effectful step.  `cookieSet` is whether
`cda_cookie != "none"`; `cached` is the `os.path.exists` test on the per-day
canonical file; `fetchOk` is whether the network download and extraction in
`_download` succeed; `openOk` is whether `pycdf.CDF` opens the per-day file;
`frameOf k d` is the frame `helper.cdf2df` (not among the sources, modelled
from the spec as total) produces for day `d` when indexed by key `k`. -/
structure LoadEnv where
  cookieSet : Bool
  cached : Nat → Bool
  fetchOk : Nat → Bool
  openOk : Nat → Bool
  frameOf : String → Nat → Frame

/-- Ways a `_download` call can raise. -/
inductive DlError
  | cookieNotSet
  | fetchFail
  deriving DecidableEq, Repr

/-- Errors `_load` can raise to its caller. -/
inductive LoadError
  | openFail (d : Nat)
  | noTimeKey (d : Nat)
  | noData
  deriving DecidableEq, Repr

/-- Behavioural model of `_download` (cluster.py lines 78-121): raises the
cookie error when the cookie is not configured, before any network activity,
else succeeds or fails with the outcome of the network fetch. -/
def _download (env : LoadEnv) (d : Nat) : Except DlError Unit :=
  if env.cookieSet then
    if env.fetchOk d then .ok () else .error .fetchFail
  else .error .cookieNotSet

/-- The decode part of the `_load` loop body (cluster.py lines 66-71):
open the per-day file with `pycdf.CDF` (uncaught on failure), locate the
index key among `cdfkeys`, and build the frame with `cdf2df`.  A missing
timestamp sentinel leaves `index_key` unbound, a `NameError`. -/
def decodeDay (env : LoadEnv) (keys : List (String × CdfVal)) (d : Nat) :
    Except LoadError Frame :=
  if env.openOk d then
    match findIndexKey keys with
    | some k => .ok (env.frameOf k d)
    | none => .error (.noTimeKey d)
  else .error (.openFail d)

/-- The per-day loop of `_load` (cluster.py lines 43-71) over a list of day
indices.  Returns the accumulated frames (or the first uncaught error) and
the trace of days on which `_download` was invoked.  Only the `_download`
call sits inside `try/except`; decode errors propagate and abort. -/
def loadDays (env : LoadEnv) (keys : List (String × CdfVal)) :
    List Nat → Except LoadError (List Frame) × List Nat
  | [] => (.ok [], [])
  | d :: rest =>
    if env.cached d then
      match decodeDay env keys d with
      | .error e => (.error e, [])
      | .ok f =>
        let r := loadDays env keys rest
        (r.1.map (fun fs => f :: fs), r.2)
    else
      match _download env d with
      | .error _ =>
        let r := loadDays env keys rest
        (r.1, d :: r.2)
      | .ok _ =>
        match decodeDay env keys d with
        | .error e => (.error e, [d])
        | .ok f =>
          let r := loadDays env keys rest
          (r.1.map (fun fs => f :: fs), d :: r.2)

/-- The tail of `_load` (cluster.py lines 72-75): propagate an uncaught
per-day error, raise the no-data error when no frame was collected, else
merge with `timefilter`. -/
def _loadMerge (r : Except LoadError (List Frame)) (s e : Nat) :
    Except LoadError Frame :=
  match r with
  | .error err => .error err
  | .ok fs =>
    if fs.length = 0 then .error .noData
    else
      match timefilter fs s e with
      | .ok m => .ok m
      | .error _ => .error .noData

/-- `_load` (cluster.py lines 40-75): split the interval into days, run the
per-day loop, raise the no-data error when no frame was collected, else
merge with `timefilter`.  Also returns the trace of `_download` invocations. -/
def _load (env : LoadEnv) (keys : List (String × CdfVal)) (s e : Nat) :
    Except LoadError Frame × List Nat :=
  (_loadMerge (loadDays env keys (daysplitinterval s e)).1 s e,
   (loadDays env keys (daysplitinterval s e)).2)

/-- The environment a run of messenger `mag_rtn` observes: per-day existence
of the fast-format hdf cache, of the local canonical cdf file, success of
the remote fetch, and the frames read from either format. -/
structure MessEnv where
  hdfExists : Nat → Bool
  localCdf : Nat → Bool
  fetchOk : Nat → Bool
  hdfFrame : Nat → Frame
  cdfFrame : Nat → Frame

/-- Errors messenger `mag_rtn` can raise. -/
inductive MessError
  | fetchFail (d : Nat)
  | noData
  deriving DecidableEq, Repr

/-- The per-day loop of `mag_rtn` (messenger.py lines 46-75).  A day with the
hdf cache present is read from it and the loop continues; otherwise
`helper.load` is modelled from the spec (it is not among the sources): it
returns the local canonical file when present and downloads it otherwise,
failing when the remote archive is unavailable — `mag_rtn` has no per-day
exception handling, so that failure aborts.  Returns the frames (or the
error) and the trace of days on which a network fetch was attempted. -/
def magDays (env : MessEnv) : List Nat → Except MessError (List Frame) × List Nat
  | [] => (.ok [], [])
  | d :: rest =>
    if env.hdfExists d then
      let r := magDays env rest
      (r.1.map (fun fs => env.hdfFrame d :: fs), r.2)
    else if env.localCdf d then
      let r := magDays env rest
      (r.1.map (fun fs => env.cdfFrame d :: fs), r.2)
    else if env.fetchOk d then
      let r := magDays env rest
      (r.1.map (fun fs => env.cdfFrame d :: fs), d :: r.2)
    else (.error (.fetchFail d), [d])

/-- The tail of `mag_rtn` (messenger.py line 77): propagate a per-day error,
else merge with `timefilter`, whose failure on an empty frame list is the
no-data error. -/
def magMerge (r : Except MessError (List Frame)) (s e : Nat) :
    Except MessError Frame :=
  match r with
  | .error err => .error err
  | .ok fs =>
    match timefilter fs s e with
    | .ok m => .ok m
    | .error _ => .error .noData

/-- `mag_rtn` (messenger.py lines 19-77): split the interval into days, run
the per-day loop, merge with `timefilter`.  Also returns the trace of
attempted network fetches. -/
def mag_rtn (env : MessEnv) (s e : Nat) : Except MessError Frame × List Nat :=
  (magMerge (magDays env (daysplitinterval s e)).1 s e,
   (magDays env (daysplitinterval s e)).2)

/-- The module constant `csa_url` (cluster.py line 26). -/
def csa_url : String := "https://csa.esac.esa.int/csa/aio/product-action?"

/-- The module-level request template `generic_dict` (cluster.py lines
31-35), an insertion-ordered dictionary initialised from the configured
cookie. -/
def generic_dict (cookie : String) : List (String × String) :=
  [("DELIVERY_FORMAT", "CDF"), ("REF_DOC", "0"),
   ("CSACOOKIE", cookie), ("INCLUDE_EMPTY", "0")]

/-- Python dictionary item assignment `d[k] = v`: update the value in place
when the key is present, else append the new entry at the end. -/
def dictSet : List (String × String) → String → String → List (String × String)
  | [], k, v => [(k, v)]
  | p :: ps, k, v => if p.1 = k then (k, v) :: ps else p :: dictSet ps k v

/-- Python dictionary lookup `d[k]` as an option, insertion order respected. -/
def lookupD : List (String × String) → String → Option String
  | [], _ => none
  | p :: ps, k => if p.1 = k then some p.2 else lookupD ps k

/-- The request string built by `_download` (cluster.py lines 92-102):
the dataset id followed by one `&key=value` pair per dictionary item in
order, ending with the non-browser marker. -/
def requestStr (probe pid : String) (dict : List (String × String)) : String :=
  (dict.foldl (fun acc p => acc ++ "&" ++ p.1 ++ "=" ++ p.2)
    ("DATASET_ID=" ++ "C" ++ probe ++ "_" ++ pid)) ++ "&NON_BROWSER"

/-- One iteration of the day loop of `_download` (cluster.py lines 82-103)
acting on the module state: `request_dict = generic_dict` aliases the
module-level template, so the two assignments on lines 88-89 mutate it;
the request url is then built from the mutated template. -/
def downloadStep (probe pid : String)
    (acc : List (String × String) × List String) (d : Nat) :
    List (String × String) × List String :=
  let dict := dictSet (dictSet acc.1 "START_DATE" (cdaFmt (d * dayLen)))
      "END_DATE" (cdaFmt (d * dayLen + (dayLen - 1)))
  (dict, acc.2 ++ [csa_url ++ requestStr probe pid dict])

/-- The module-state view of `_download` (cluster.py lines 78-103): check
the cookie before anything else, then run the day loop threading the
module-level `generic_dict`.  Returns the new module state and the trace of
request urls, or the cookie error with an empty url trace. -/
def _download_state (cookie probe pid : String) (s e : Nat)
    (gd : List (String × String)) :
    Except Unit (List (String × String) × List String) :=
  if cookie = "none" then .error ()
  else .ok ((daysplitinterval s e).foldl (downloadStep probe pid) (gd, []))

/-- The shared stem of the per-day filenames: `"C" + probe + "_" +
product_id + "__" + year + month + day`. -/
def fnameStem (probe pid : String) (d : Nat) : String :=
  "C" ++ probe ++ "_" ++ pid ++ "__" ++ ymdStr d

/-- `local_fname` checked and read by `_load` (cluster.py lines 54-55). -/
def local_fname (probe pid : String) (d : Nat) : String :=
  fnameStem probe pid d ++ ".cdf"

/-- The archive filename `_download` writes (cluster.py lines 106-115),
computed from its `starttime` argument, not from the day of its loop. -/
def download_fname (probe pid : String) (starttime : Nat) : String :=
  fnameStem probe pid (dateOf starttime) ++ ".tar.gz"

/-- Python string slicing `f[:n]` by code point. -/
def pySlice (f : String) (n : Nat) : String := String.mk (f.data.take n)

/-- `cutoff = 3 + len(product_id) + 10` (cluster.py line 140). -/
def cutoff (pid : String) : Nat := 3 + pid.length + 10

/-- The rename of an extracted payload file (cluster.py lines 141-143):
truncate at the cutoff and append the canonical extension. -/
def renamed (pid f : String) : String := pySlice f (cutoff pid) ++ ".cdf"

/-! ### Helper lemmas about the interval partition -/

theorem mem_range1 {s n m : Nat} : m ∈ List.range' s n ↔ s ≤ m ∧ m < s + n := by
  rw [List.mem_range']
  constructor
  · rintro ⟨i, hi, rfl⟩; omega
  · intro h; exact ⟨m - s, by omega, by omega⟩

theorem chain_range1 (n : Nat) : ∀ s,
    List.Chain' (fun a b => b = a + 1) (List.range' s n) := by
  induction n with
  | zero => intro s; simp
  | succ m ih =>
    intro s
    rcases m with _ | m2
    · simp
    · rw [List.range'_succ, List.range'_succ, List.chain'_cons]
      exact ⟨rfl, by rw [← List.range'_succ]; exact ih (s + 1)⟩

theorem pairwise_range1 (n : Nat) : ∀ s, (List.range' s n).Pairwise (· < ·) := by
  induction n with
  | zero => intro s; simp
  | succ m ih =>
    intro s
    rw [List.range'_succ]
    refine List.Pairwise.cons ?_ (ih (s + 1))
    intro b hb
    have := mem_range1.1 hb
    omega

theorem daysplit_mem {s e d : Nat} (hse : s < e) :
    d ∈ daysplitinterval s e ↔ d * dayLen < e ∧ s < (d + 1) * dayLen := by
  have hL := dayLen_pos
  have hne : s ≠ e := Nat.ne_of_lt hse
  rw [daysplitinterval, if_neg hne, mem_range1]
  unfold dateOf
  have h1 : s / dayLen ≤ (e - 1) / dayLen := Nat.div_le_div_right (by omega)
  constructor
  · rintro ⟨ha, hb⟩
    refine ⟨?_, ?_⟩
    · have h2 : d ≤ (e - 1) / dayLen := by omega
      have h3 := (Nat.le_div_iff_mul_le hL).1 h2
      omega
    · have h4 : s / dayLen < d + 1 := by omega
      exact (Nat.div_lt_iff_lt_mul hL).1 h4
  · rintro ⟨ha, hb⟩
    have h2 : s / dayLen < d + 1 := (Nat.div_lt_iff_lt_mul hL).2 hb
    have h3 : d ≤ (e - 1) / dayLen := (Nat.le_div_iff_mul_le hL).2 (by omega)
    exact ⟨by omega, by omega⟩

theorem daysplit_chain (s e : Nat) :
    List.Chain' (fun a b => b = a + 1) (daysplitinterval s e) := by
  unfold daysplitinterval
  split
  · simp
  · exact chain_range1 _ _

theorem daysplit_sorted (s e : Nat) :
    (daysplitinterval s e).Pairwise (· < ·) := by
  unfold daysplitinterval
  split
  · simp
  · exact pairwise_range1 _ _

theorem daysplit_ne_nil {s e : Nat} (h : s ≤ e) : daysplitinterval s e ≠ [] := by
  unfold daysplitinterval
  split
  next => simp
  next hne =>
    have h1 : dateOf s ≤ dateOf (e - 1) := Nat.div_le_div_right (by omega)
    intro hcon
    have h2 := congrArg List.length hcon
    simp only [List.length_range', List.length_nil] at h2
    omega

theorem daysplit_single_day (d : Nat) :
    daysplitinterval (d * dayLen) (d * dayLen + (dayLen - 1)) = [d] := by
  have hL : 0 < dayLen := dayLen_pos
  have h2 : 2 ≤ dayLen := by decide
  have hne : d * dayLen ≠ d * dayLen + (dayLen - 1) := by omega
  rw [daysplitinterval, if_neg hne]
  have hds : dateOf (d * dayLen) = d := by
    unfold dateOf dayLen; omega
  have hde : dateOf (d * dayLen + (dayLen - 1) - 1) = d := by
    unfold dateOf dayLen; omega
  rw [hds, hde]
  have h4 : d + 1 - d = 1 := by omega
  rw [h4, List.range'_one]

/-! ### Helper lemmas about the merger -/

theorem tinsert_mem (r x : Nat × Int) (l : List (Nat × Int)) :
    x ∈ tinsert r l ↔ x = r ∨ x ∈ l := by
  induction l with
  | nil => simp [tinsert]
  | cons y ys ih =>
    simp only [tinsert]
    split
    · simp only [List.mem_cons]
    · simp only [List.mem_cons, ih]; tauto

theorem tinsert_pairwise {r : Nat × Int} {l : List (Nat × Int)}
    (h : l.Pairwise (fun a b => a.1 ≤ b.1)) :
    (tinsert r l).Pairwise (fun a b => a.1 ≤ b.1) := by
  induction l with
  | nil => simp [tinsert]
  | cons y ys ih =>
    rcases List.pairwise_cons.1 h with ⟨hy, hys⟩
    simp only [tinsert]
    split
    next hlt =>
      refine List.Pairwise.cons ?_ h
      intro b hb
      rcases List.mem_cons.1 hb with rfl | hb2
      · omega
      · have := hy b hb2; omega
    next hge =>
      refine List.Pairwise.cons ?_ (ih hys)
      intro b hb
      rcases (tinsert_mem r b ys).1 hb with rfl | hb2
      · omega
      · exact hy b hb2

theorem tsort_aux_mem (l : List (Nat × Int)) : ∀ acc x,
    (x ∈ l.foldl (fun acc r => tinsert r acc) acc) ↔ x ∈ acc ∨ x ∈ l := by
  induction l with
  | nil => intro acc x; simp
  | cons y ys ih =>
    intro acc x
    simp only [List.foldl_cons, ih, tinsert_mem, List.mem_cons]
    tauto

theorem tsort_mem (l : List (Nat × Int)) (x : Nat × Int) :
    x ∈ tsort l ↔ x ∈ l := by
  unfold tsort; rw [tsort_aux_mem]; simp

theorem tsort_aux_pairwise (l : List (Nat × Int)) : ∀ acc,
    acc.Pairwise (fun a b => a.1 ≤ b.1) →
    (l.foldl (fun acc r => tinsert r acc) acc).Pairwise (fun a b => a.1 ≤ b.1) := by
  induction l with
  | nil => intro acc h; exact h
  | cons y ys ih => intro acc h; exact ih _ (tinsert_pairwise h)

theorem tsort_pairwise (l : List (Nat × Int)) :
    (tsort l).Pairwise (fun a b => a.1 ≤ b.1) :=
  tsort_aux_pairwise l [] (by simp)

theorem dedupLast_subset : ∀ (l : List (Nat × Int)) (x : Nat × Int),
    x ∈ dedupLast l → x ∈ l
  | [], x, h => by simp [dedupLast] at h
  | [y], x, h => by simpa [dedupLast] using h
  | y :: z :: zs, x, h => by
    simp only [dedupLast] at h
    split at h
    · exact List.mem_cons_of_mem _ (dedupLast_subset (z :: zs) x h)
    · rcases List.mem_cons.1 h with rfl | h2
      · exact List.mem_cons_self _ _
      · exact List.mem_cons_of_mem _ (dedupLast_subset (z :: zs) x h2)

theorem dedupLast_pairwise_lt : ∀ (l : List (Nat × Int)),
    l.Pairwise (fun a b => a.1 ≤ b.1) →
    (dedupLast l).Pairwise (fun a b => a.1 < b.1)
  | [], _ => by simp [dedupLast]
  | [y], _ => by simp [dedupLast]
  | y :: z :: zs, h => by
    rcases List.pairwise_cons.1 h with ⟨hy, htail⟩
    simp only [dedupLast]
    split
    next heq => exact dedupLast_pairwise_lt (z :: zs) htail
    next hne =>
      refine List.Pairwise.cons ?_ (dedupLast_pairwise_lt (z :: zs) htail)
      intro b hb
      have hbmem := dedupLast_subset (z :: zs) b hb
      have h1 : y.1 ≤ z.1 := hy z (List.mem_cons_self _ _)
      rcases List.mem_cons.1 hbmem with rfl | h2
      · omega
      · have h3 := (List.pairwise_cons.1 htail).1 b h2
        omega

theorem mergeFrames_sound (frames : List Frame) (s e : Nat) :
    (∀ r ∈ mergeFrames frames s e, s ≤ r.1 ∧ r.1 < e) ∧
    (mergeFrames frames s e).Pairwise (fun a b => a.1 < b.1) := by
  constructor
  · intro r hr
    have h1 := dedupLast_subset _ r hr
    have h2 := (tsort_mem _ r).1 h1
    have h3 := List.mem_filter.1 h2
    have h4 := h3.2
    simp only [Bool.and_eq_true, decide_eq_true_eq] at h4
    exact h4
  · exact dedupLast_pairwise_lt _ (tsort_pairwise _)

/-! ### Helper lemmas about the per-day loop of the cluster pipeline -/

/-- A day reaches the decode part of the loop body: it was cached, or its
download was attempted with the cookie configured and succeeded. -/
def attempted (env : LoadEnv) (d : Nat) : Bool :=
  env.cached d || (env.cookieSet && env.fetchOk d)

/-- The decode part succeeds for a day: the file opens and the key mapping
holds the timestamp sentinel. -/
def decodeOk (env : LoadEnv) (keys : List (String × CdfVal)) (d : Nat) : Bool :=
  env.openOk d && (findIndexKey keys).isSome

/-- The frame decoded for a day when the decode part succeeds. -/
def dayFrame (env : LoadEnv) (keys : List (String × CdfVal)) (d : Nat) : Frame :=
  env.frameOf ((findIndexKey keys).getD "") d

theorem decodeDay_of_ok {env : LoadEnv} {keys : List (String × CdfVal)} {d : Nat}
    (h : decodeOk env keys d = true) :
    decodeDay env keys d = .ok (dayFrame env keys d) := by
  unfold decodeOk at h
  rw [Bool.and_eq_true] at h
  obtain ⟨ho, hk⟩ := h
  obtain ⟨k, hk2⟩ := Option.isSome_iff_exists.1 hk
  simp [decodeDay, dayFrame, ho, hk2]

theorem decodeDay_error {env : LoadEnv} {keys : List (String × CdfVal)} {d : Nat}
    (h : decodeOk env keys d = false) :
    ∃ err, decodeDay env keys d = .error err ∧ err ≠ LoadError.noData := by
  by_cases ho : env.openOk d = true
  · have hk : findIndexKey keys = none := by
      unfold decodeOk at h
      rw [ho, Bool.true_and] at h
      exact Option.not_isSome_iff_eq_none.1 (by simp [h])
    exact ⟨.noTimeKey d, by simp [decodeDay, ho, hk], by simp⟩
  · have ho2 : env.openOk d = false := by simpa using ho
    exact ⟨.openFail d, by simp [decodeDay, ho2], by simp⟩

theorem loadDays_spec (env : LoadEnv) (keys : List (String × CdfVal)) :
    ∀ days : List Nat,
    (∀ d ∈ days, attempted env d = true → decodeOk env keys d = true) →
    loadDays env keys days =
      (.ok ((days.filter (fun d => attempted env d)).map (dayFrame env keys)),
       days.filter (fun d => !env.cached d)) := by
  intro days
  induction days with
  | nil => intro h; rfl
  | cons d rest ih =>
    intro h
    have hrest := ih (fun d2 hd2 => h d2 (List.mem_cons_of_mem _ hd2))
    have hd := h d (List.mem_cons_self _ _)
    by_cases hc : env.cached d = true
    · have hatt : attempted env d = true := by simp [attempted, hc]
      have hdec := decodeDay_of_ok (hd hatt)
      simp [loadDays, hc, hdec, hrest, List.filter_cons, hatt, Except.map]
    · have hc2 : env.cached d = false := by simpa using hc
      by_cases hck : env.cookieSet = true
      · by_cases hf : env.fetchOk d = true
        · have hatt : attempted env d = true := by simp [attempted, hck, hf]
          have hdec := decodeDay_of_ok (hd hatt)
          simp [loadDays, hc2, _download, hck, hf, hdec, hrest,
            List.filter_cons, hatt, Except.map]
        · have hf2 : env.fetchOk d = false := by simpa using hf
          have hatt : attempted env d = false := by simp [attempted, hc2, hf2]
          simp [loadDays, hc2, _download, hck, hf2, hrest,
            List.filter_cons, hatt]
      · have hck2 : env.cookieSet = false := by simpa using hck
        have hatt : attempted env d = false := by simp [attempted, hc2, hck2]
        simp [loadDays, hc2, _download, hck2, hrest, List.filter_cons, hatt]

theorem loadDays_error_cons (env : LoadEnv) (keys : List (String × CdfVal))
    (d : Nat) (rest : List Nat)
    (ha : attempted env d = true) (hb : decodeOk env keys d = false) :
    ∃ err, (loadDays env keys (d :: rest)).1 = .error err ∧
      err ≠ LoadError.noData := by
  obtain ⟨err, herr, hne⟩ := decodeDay_error hb
  by_cases hc : env.cached d = true
  · exact ⟨err, by simp [loadDays, hc, herr], hne⟩
  · have hc2 : env.cached d = false := by simpa using hc
    have hcf : env.cookieSet = true ∧ env.fetchOk d = true := by
      unfold attempted at ha
      rw [hc2, Bool.false_or, Bool.and_eq_true] at ha
      exact ha
    exact ⟨err,
      by simp [loadDays, hc2, _download, hcf.1, hcf.2, herr], hne⟩

theorem loadDays_trace_cached (env : LoadEnv) (keys : List (String × CdfVal)) :
    ∀ days : List Nat, (∀ d ∈ days, env.cached d = true) →
    (loadDays env keys days).2 = [] := by
  intro days
  induction days with
  | nil => intro h; rfl
  | cons d rest ih =>
    intro h
    have hc := h d (List.mem_cons_self _ _)
    have hrest := ih (fun d2 hd2 => h d2 (List.mem_cons_of_mem _ hd2))
    cases hdec : decodeDay env keys d with
    | error e => simp [loadDays, hc, hdec]
    | ok f => simp [loadDays, hc, hdec, hrest]

theorem magDays_cached (env : MessEnv) : ∀ days : List Nat,
    (∀ d ∈ days, env.hdfExists d = true ∨ env.localCdf d = true) →
    magDays env days =
      (.ok (days.map (fun d =>
          if env.hdfExists d then env.hdfFrame d else env.cdfFrame d)), []) := by
  intro days
  induction days with
  | nil => intro h; rfl
  | cons d rest ih =>
    intro h
    have hrest := ih (fun d2 hd2 => h d2 (List.mem_cons_of_mem _ hd2))
    rcases h d (List.mem_cons_self _ _) with hh | hl
    · simp [magDays, hh, hrest, Except.map]
    · by_cases hh2 : env.hdfExists d = true
      · simp [magDays, hh2, hrest, Except.map]
      · have hh3 : env.hdfExists d = false := by simpa using hh2
        simp [magDays, hh3, hl, hrest, Except.map]

/-! ### Helper lemmas about the merge tails -/

theorem _loadMerge_ok {r : Except LoadError (List Frame)} {s e : Nat} {m : Frame}
    (h : _loadMerge r s e = .ok m) :
    ∃ fs, fs ≠ [] ∧ r = .ok fs ∧ m = mergeFrames fs s e := by
  cases r with
  | error err => simp [_loadMerge] at h
  | ok fs =>
    by_cases hfs : fs.length = 0
    · simp [_loadMerge, hfs] at h
    · have hne : fs ≠ [] := by
        intro hh; subst hh; simp at hfs
      simp [_loadMerge, hfs, timefilter, hne] at h
      exact ⟨fs, hne, rfl, h.symm⟩

theorem _loadMerge_noData_iff (fs : List Frame) (s e : Nat) :
    _loadMerge (.ok fs) s e = .error .noData ↔ fs = [] := by
  by_cases hfs : fs = []
  · subst hfs; simp [_loadMerge]
  · have hlen : ¬(fs.length = 0) := by simpa [List.length_eq_zero] using hfs
    simp [_loadMerge, hlen, timefilter, hfs]

theorem _loadMerge_ok_of_ne (fs : List Frame) (s e : Nat) (hne : fs ≠ []) :
    _loadMerge (.ok fs) s e = .ok (mergeFrames fs s e) := by
  have hlen : ¬(fs.length = 0) := by simpa [List.length_eq_zero] using hne
  simp [_loadMerge, hlen, timefilter, hne]

theorem magMerge_ok {r : Except MessError (List Frame)} {s e : Nat} {m : Frame}
    (h : magMerge r s e = .ok m) :
    ∃ fs, fs ≠ [] ∧ r = .ok fs ∧ m = mergeFrames fs s e := by
  cases r with
  | error err => simp [magMerge] at h
  | ok fs =>
    by_cases hfs : fs = []
    · subst hfs; simp [magMerge, timefilter] at h
    · simp [magMerge, timefilter, hfs] at h
      exact ⟨fs, hfs, rfl, h.symm⟩

/-! ### Helper lemmas about the request dictionary and the download state -/

theorem lookupD_dictSet_self : ∀ (d : List (String × String)) (k v : String),
    lookupD (dictSet d k v) k = some v
  | [], k, v => by simp [dictSet, lookupD]
  | p :: ps, k, v => by
    simp only [dictSet]
    split
    next h => simp [lookupD]
    next h => simp only [lookupD, if_neg h]; exact lookupD_dictSet_self ps k v

theorem lookupD_dictSet_ne : ∀ (d : List (String × String)) (k v k2 : String),
    k ≠ k2 → lookupD (dictSet d k v) k2 = lookupD d k2
  | [], k, v, k2, h => by simp [dictSet, lookupD, h]
  | p :: ps, k, v, k2, h => by
    simp only [dictSet]
    split
    next hp =>
      have hp2 : p.1 ≠ k2 := by rw [hp]; exact h
      simp [lookupD, h, hp2]
    next hp =>
      by_cases hq : p.1 = k2 <;>
        simp [lookupD, hq, lookupD_dictSet_ne ps k v k2 h]

theorem downloadFold_spec (probe pid : String) : ∀ (days : List Nat)
    (acc : List (String × String) × List String) (dl : Nat),
    days.getLast? = some dl →
    lookupD (days.foldl (downloadStep probe pid) acc).1 "START_DATE" =
      some (cdaFmt (dl * dayLen)) ∧
    lookupD (days.foldl (downloadStep probe pid) acc).1 "END_DATE" =
      some (cdaFmt (dl * dayLen + (dayLen - 1))) ∧
    (days.foldl (downloadStep probe pid) acc).2.getLast? =
      some (csa_url ++
        requestStr probe pid (days.foldl (downloadStep probe pid) acc).1) := by
  intro days
  induction days with
  | nil => intro acc dl h; simp at h
  | cons d rest ih =>
    intro acc dl h
    cases rest with
    | nil =>
      have hd : d = dl := by simpa using h
      subst hd
      simp only [List.foldl_cons, List.foldl_nil, downloadStep]
      refine ⟨?_, ?_, ?_⟩
      · rw [lookupD_dictSet_ne _ _ _ _ (by decide)]
        exact lookupD_dictSet_self _ _ _
      · exact lookupD_dictSet_self _ _ _
      · simp [List.getLast?_concat]
    | cons d2 rest2 =>
      rw [List.getLast?_cons_cons] at h
      simp only [List.foldl_cons]
      exact ih _ dl h

/-- The successful outcome of a `_download` call (module-state view): the
module dictionary afterwards holds the start and end timestamps of the most
recent day of the call, and the last request url was built from that same
mutated dictionary. -/
theorem download_state_ok (cookie probe pid : String) (s e : Nat)
    (gd : List (String × String)) (hc : cookie ≠ "none") (hse : s ≤ e) :
    ∃ gd2 urls dl,
      _download_state cookie probe pid s e gd = .ok (gd2, urls) ∧
      (daysplitinterval s e).getLast? = some dl ∧
      lookupD gd2 "START_DATE" = some (cdaFmt (dl * dayLen)) ∧
      lookupD gd2 "END_DATE" = some (cdaFmt (dl * dayLen + (dayLen - 1))) ∧
      urls.getLast? = some (csa_url ++ requestStr probe pid gd2) := by
  have hne := daysplit_ne_nil hse
  have hl : ∃ dl, (daysplitinterval s e).getLast? = some dl := by
    cases hx : (daysplitinterval s e).getLast? with
    | none => exact absurd (List.getLast?_eq_none_iff.1 hx) hne
    | some a => exact ⟨a, rfl⟩
  obtain ⟨dl, hdl⟩ := hl
  obtain ⟨h1, h2, h3⟩ := downloadFold_spec probe pid (daysplitinterval s e)
    (gd, []) dl hdl
  refine ⟨_, _, dl, ?_, hdl, h1, h2, h3⟩
  unfold _download_state
  rw [if_neg hc]

/-! ### Helper lemmas about the per-day filenames -/

theorem fnameStem_length (probe pid : String) (d : Nat)
    (hp : probe.length = 1) (hy : (ymdStr d).length = 8) :
    (fnameStem probe pid d).length = cutoff pid := by
  have l1 : ("C" : String).length = 1 := rfl
  have l2 : ("_" : String).length = 1 := rfl
  have l3 : ("__" : String).length = 2 := rfl
  simp only [fnameStem, cutoff, String.length_append, l1, l2, l3, hp, hy]

theorem str_data_length (s : String) : s.data.length = s.length := by
  cases s; rfl

theorem str_mk_data (s : String) : String.mk s.data = s := by
  cases s; rfl

theorem renamed_stem (probe pid suffix : String) (d : Nat)
    (hp : probe.length = 1) (hy : (ymdStr d).length = 8) :
    renamed pid (fnameStem probe pid d ++ suffix) = local_fname probe pid d := by
  have hlen : (fnameStem probe pid d).data.length = cutoff pid :=
    (str_data_length _).trans (fnameStem_length probe pid d hp hy)
  have h1 : ((fnameStem probe pid d ++ suffix).data).take (cutoff pid) =
      (fnameStem probe pid d).data := by
    rw [String.data_append]; exact List.take_left' hlen
  calc renamed pid (fnameStem probe pid d ++ suffix)
      = String.mk (((fnameStem probe pid d ++ suffix).data).take (cutoff pid))
          ++ ".cdf" := rfl
    _ = String.mk ((fnameStem probe pid d).data) ++ ".cdf" := by rw [h1]
    _ = fnameStem probe pid d ++ ".cdf" :=
        congrArg (fun x => x ++ ".cdf") (str_mk_data (fnameStem probe pid d))
    _ = local_fname probe pid d := rfl

theorem download_fname_eq (probe pid : String) (d : Nat) :
    download_fname probe pid (d * dayLen) = fnameStem probe pid d ++ ".tar.gz" := by
  unfold download_fname
  have h : dateOf (d * dayLen) = d := by unfold dateOf dayLen; omega
  rw [h]

/-- Two three-part concatenations around the same middle differ whenever
the outer parts have different total lengths. -/
theorem append3_len_ne {a b c d : String} (h : a.length + b.length ≠ c.length + d.length)
    {p : String} : a ++ p ++ b ≠ c ++ p ++ d := by
  intro hcon
  have h2 := congrArg String.length hcon
  simp only [String.length_append] at h2
  omega

/-! ### Concrete environments used by witnesses and counterexamples -/

/-- A minimal key mapping holding only the timestamp sentinel. -/
def keysA : List (String × CdfVal) := [("tkey", CdfVal.str "Time")]

/-- Day 0 cached and decodable, every download failing on the network. -/
def envW : LoadEnv :=
  ⟨true, fun d => d == 0, fun _ => false, fun _ => true, fun _ d => [(d, 0)]⟩

/-- Everything cached, but the day-1 file does not open. -/
def envA : LoadEnv :=
  ⟨true, fun _ => true, fun _ => true, fun d => d == 0, fun _ _ => [(5, 3)]⟩

/-- Days 0 and 1 cached, later days fetchable, but the day-1 file does not
open. -/
def envB : LoadEnv :=
  ⟨true, fun d => decide (d ≤ 1), fun _ => true, fun d => d == 0,
   fun _ _ => [(7, 1)]⟩

/-- Cookie unset, day 0 cached and decodable, nothing else cached. -/
def envC : LoadEnv :=
  ⟨false, fun d => d == 0, fun _ => true, fun _ => true, fun _ _ => [(5, 3)]⟩

/-- Everything cached and decodable. -/
def envD : LoadEnv :=
  ⟨true, fun _ => true, fun _ => true, fun _ => true, fun _ _ => [(1, 2)]⟩

/-- Messenger: day 0 has the fast-format cache, day 1 the local canonical
file, the network always failing. -/
def messW : MessEnv :=
  ⟨fun d => d == 0, fun d => d == 1, fun _ => false,
   fun _ => [(3, 4)], fun _ => [(9, 9)]⟩

/-! ### The claims -/

/-- C1, counterexample to the claim as stated: in `envB` over three days,
day 0 is decoded fine and day 2 is uncached but fetchable, yet the decode
failure of day 1 aborts the whole request (an error is returned) and day 2
is never processed (the download trace is empty although a download for
day 2 would have been attempted had the loop continued). -/
theorem c1_counterexample :
    envB.cached 2 = false ∧ envB.fetchOk 2 = true ∧
    (_load envB keysA 0 (3 * dayLen)).1 = .error (.openFail 1) ∧
    (_load envB keysA 0 (3 * dayLen)).2 = [] :=
  ⟨rfl, rfl, rfl, rfl⟩

/-- C1 (amended): a fetch failure for one day only skips that day — when no
attempted day fails to decode, the loop returns exactly the frames of the
days that were cached or fetched, and the trace shows every uncached day
was tried; a decode failure for a reached day, by contrast, aborts the
request with that error (it is not the no-data error). -/
theorem c1_fetch_contained (env : LoadEnv) (keys : List (String × CdfVal))
    (days : List Nat)
    (hdec : ∀ d ∈ days, attempted env d = true → decodeOk env keys d = true) :
    loadDays env keys days =
      (.ok ((days.filter (fun d => attempted env d)).map (dayFrame env keys)),
       days.filter (fun d => !env.cached d)) ∧
    (∀ d rest, attempted env d = true → decodeOk env keys d = false →
      ∃ err, (loadDays env keys (d :: rest)).1 = .error err ∧
        err ≠ LoadError.noData) :=
  ⟨loadDays_spec env keys days hdec,
   fun d rest ha hb => loadDays_error_cons env keys d rest ha hb⟩

/-- C1, witness: in `envW` the fetch of day 1 fails and only day 1 is
skipped, day 0 still producing its frame; and in `envB` a reached day that
fails to decode aborts. -/
theorem c1_witness :
    loadDays envW keysA [0, 1] = (.ok [[(0, 0)]], [1]) ∧
    (∃ err, (loadDays envB keysA (1 :: [2])).1 = .error err ∧
      err ≠ LoadError.noData) :=
  ⟨((c1_fetch_contained envW keysA [0, 1] (by decide)).1).trans rfl,
   (c1_fetch_contained envB keysA [] (by decide)).2 1 [2]
     (by decide) (by decide)⟩

/-- C2, counterexample to the claim as stated: in `envA` day 0 produces a
frame, yet the request returns an error (the day-1 decode failure) rather
than a merged partial result. -/
theorem c2_counterexample :
    decodeDay envA keysA 0 = .ok [(5, 3)] ∧
    (_load envA keysA 0 (2 * dayLen)).1 = .error (.openFail 1) :=
  ⟨rfl, rfl⟩

/-- C2 (amended): when the per-day loop completes without an uncaught decode
error, `_load` raises the no-data error exactly when the collected frame
list is empty, and returns the merged result whenever at least one day
produced a frame. -/
theorem c2_noData_iff (env : LoadEnv) (keys : List (String × CdfVal))
    (s e : Nat) (fs : List Frame) (dl : List Nat)
    (h : loadDays env keys (daysplitinterval s e) = (.ok fs, dl)) :
    ((_load env keys s e).1 = .error .noData ↔ fs = []) ∧
    (fs ≠ [] → (_load env keys s e).1 = .ok (mergeFrames fs s e)) := by
  have h1 : (_load env keys s e).1 = _loadMerge (.ok fs) s e := by
    simp [_load, h]
  constructor
  · rw [h1]; exact _loadMerge_noData_iff fs s e
  · intro hne; rw [h1]; exact _loadMerge_ok_of_ne fs s e hne

/-- C2, witness: instantiation of the amended claim in `envW`, where day 0
produced a frame and day 1 failed to fetch. -/
theorem c2_witness :
    ((_load envW keysA 0 (2 * dayLen)).1 = .error .noData ↔
      ([[(0, 0)]] : List Frame) = []) ∧
    (([[(0, 0)]] : List Frame) ≠ [] →
      (_load envW keysA 0 (2 * dayLen)).1 =
        .ok (mergeFrames [[(0, 0)]] 0 (2 * dayLen))) :=
  c2_noData_iff envW keysA 0 (2 * dayLen) [[(0, 0)]] [1] rfl

/-- C3: every merged result returned by the cluster `_load` or the
messenger `mag_rtn` pipeline has all row timestamps inside the half-open
request interval and strictly increasing (hence no duplicates). -/
theorem c3_range_sorted (env : LoadEnv) (keys : List (String × CdfVal))
    (menv : MessEnv) (s e : Nat) (m m2 : Frame)
    (h1 : (_load env keys s e).1 = .ok m)
    (h2 : (mag_rtn menv s e).1 = .ok m2) :
    ((∀ r ∈ m, s ≤ r.1 ∧ r.1 < e) ∧ m.Pairwise (fun a b => a.1 < b.1)) ∧
    ((∀ r ∈ m2, s ≤ r.1 ∧ r.1 < e) ∧ m2.Pairwise (fun a b => a.1 < b.1)) := by
  constructor
  · obtain ⟨fs, hne, hok, hm⟩ := _loadMerge_ok (by simpa [_load] using h1)
    subst hm
    exact mergeFrames_sound fs s e
  · obtain ⟨fs, hne, hok, hm⟩ := magMerge_ok (by simpa [mag_rtn] using h2)
    subst hm
    exact mergeFrames_sound fs s e

/-- C3, witness: instantiation on two small successful runs. -/
theorem c3_witness :
    ((∀ r ∈ ([(1, 2)] : Frame), 0 ≤ r.1 ∧ r.1 < 2 * dayLen) ∧
      ([(1, 2)] : Frame).Pairwise (fun a b => a.1 < b.1)) ∧
    ((∀ r ∈ ([(3, 4), (9, 9)] : Frame), 0 ≤ r.1 ∧ r.1 < 2 * dayLen) ∧
      ([(3, 4), (9, 9)] : Frame).Pairwise (fun a b => a.1 < b.1)) :=
  c3_range_sorted envD keysA messW 0 (2 * dayLen) [(1, 2)] [(3, 4), (9, 9)]
    rfl rfl

/-- C4: when every day of the partition is cached — the canonical per-day
file for the cluster pipeline, the fast-format or the canonical local file
for the messenger pipeline — no download is invoked (both traces are
empty) and the messenger frames come from the local files alone. -/
theorem c4_cached_no_fetch (env : LoadEnv) (keys : List (String × CdfVal))
    (menv : MessEnv) (s e : Nat)
    (h1 : ∀ d ∈ daysplitinterval s e, env.cached d = true)
    (h2 : ∀ d ∈ daysplitinterval s e,
      menv.hdfExists d = true ∨ menv.localCdf d = true) :
    (_load env keys s e).2 = [] ∧
    (mag_rtn menv s e).2 = [] ∧
    magDays menv (daysplitinterval s e) =
      (.ok ((daysplitinterval s e).map (fun d =>
        if menv.hdfExists d then menv.hdfFrame d else menv.cdfFrame d)), []) := by
  refine ⟨?_, ?_, magDays_cached menv _ h2⟩
  · simpa [_load] using loadDays_trace_cached env keys _ h1
  · simp [mag_rtn, magDays_cached menv _ h2]

/-- C4, witness: a two-day interval with every artifact cached performs
zero fetches in both pipelines. -/
theorem c4_witness :
    (_load envA keysA 0 (2 * dayLen)).2 = [] ∧
    (mag_rtn messW 0 (2 * dayLen)).2 = [] ∧
    magDays messW (daysplitinterval 0 (2 * dayLen)) =
      (.ok [[(3, 4)], [(9, 9)]], []) := by
  have h := c4_cached_no_fetch envA keysA messW 0 (2 * dayLen)
    (by decide) (by decide)
  exact ⟨h.1, h.2.1, h.2.2.trans rfl⟩

/-- C5, counterexample to the claim as stated: in `envC` the cookie is not
configured, yet the request does not fail with a configuration error — the
cookie error raised inside the per-day `_download` call for day 1 is caught
by the per-day skip logic of `_load` (the trace shows the day-1 download
was attempted), and the request returns the partial result of cached
day 0. -/
theorem c5_counterexample :
    envC.cookieSet = false ∧
    (_load envC keysA 0 (2 * dayLen)).1 = .ok [(5, 3)] ∧
    (_load envC keysA 0 (2 * dayLen)).2 = [1] :=
  ⟨rfl, rfl, rfl⟩

/-- C5 (amended): with the cookie unset, every `_download` call raises the
cookie error at its start — before any network activity, as the module
state view shows by failing with no request urls built — but `_load`
swallows it per day like any fetch failure: cached days are still decoded
and every uncached day is skipped, so the caller never sees the
configuration error. -/
theorem c5_cookie_swallowed (env : LoadEnv) (keys : List (String × CdfVal))
    (days : List Nat) (probe pid : String) (s e : Nat)
    (gd : List (String × String))
    (hck : env.cookieSet = false)
    (hdec : ∀ d ∈ days, env.cached d = true → decodeOk env keys d = true) :
    (∀ d, _download env d = .error .cookieNotSet) ∧
    _download_state "none" probe pid s e gd = .error () ∧
    loadDays env keys days =
      (.ok ((days.filter (fun d => env.cached d)).map (dayFrame env keys)),
       days.filter (fun d => !env.cached d)) := by
  have hatt : ∀ d, attempted env d = env.cached d := by
    intro d; simp [attempted, hck]
  refine ⟨?_, rfl, ?_⟩
  · intro d; simp [_download, hck]
  · have h := loadDays_spec env keys days
      (fun d hd ha => hdec d hd ((hatt d).symm.trans ha))
    simpa only [hatt] using h

/-- C5, witness: instantiation of the amended claim in `envC`. -/
theorem c5_witness :
    _download envC 1 = .error .cookieNotSet ∧
    _download_state "none" "1" "CP_FGM_FULL" 0 0 (generic_dict "none") =
      .error () ∧
    loadDays envC keysA [0, 1] = (.ok [[(5, 3)]], [1]) := by
  have h := c5_cookie_swallowed envC keysA [0, 1] "1" "CP_FGM_FULL" 0 0
    (generic_dict "none") rfl (by decide)
  exact ⟨h.1 1, h.2.1, h.2.2.trans rfl⟩

/-- C6: for start before or equal to end, the interval partition is a
consecutive run of day indices (ascending, each day exactly once, no
gaps); for an empty interval it is exactly the one day of the start, and
for a nonempty interval membership is exactly intersection of the day with
the half-open interval. -/
theorem c6_partition (s e : Nat) (_h : s ≤ e) :
    List.Chain' (fun a b => b = a + 1) (daysplitinterval s e) ∧
    (daysplitinterval s e).Pairwise (· < ·) ∧
    (s = e → daysplitinterval s e = [dateOf s]) ∧
    (s < e → ∀ d, d ∈ daysplitinterval s e ↔
      d * dayLen < e ∧ s < (d + 1) * dayLen) := by
  refine ⟨daysplit_chain s e, daysplit_sorted s e, ?_, ?_⟩
  · intro he; simp [daysplitinterval, he]
  · intro hlt d; exact daysplit_mem hlt

/-- C6, witness: day 1 belongs to the partition of a two-day interval. -/
theorem c6_witness : 1 ∈ daysplitinterval 0 (2 * dayLen) :=
  ((c6_partition 0 (2 * dayLen) (Nat.zero_le _)).2.2.2
    (by decide) 1).2 (by decide)

/-- C7: the decode step fails exactly when the artifact does not open or no
entry of the key mapping is the timestamp sentinel; and when the sentinel
entry is unique and the artifact opens, the decode succeeds using exactly
that entry as the row index key. -/
theorem c7_decode (env : LoadEnv) (keys : List (String × CdfVal)) (d : Nat) :
    ((∃ err, decodeDay env keys d = .error err) ↔
      (env.openOk d = false ∨ findIndexKey keys = none)) ∧
    (∀ k, (k, CdfVal.str "Time") ∈ keys →
      (∀ p ∈ keys, isTimeSentinel p.2 = true → p.1 = k) →
      env.openOk d = true →
      decodeDay env keys d = .ok (env.frameOf k d)) := by
  constructor
  · constructor
    · rintro ⟨err, herr⟩
      by_cases ho : env.openOk d = true
      · cases hk : findIndexKey keys with
        | none => exact Or.inr rfl
        | some k => simp [decodeDay, ho, hk] at herr
      · exact Or.inl (by simpa using ho)
    · rintro (ho | hk)
      · exact ⟨.openFail d, by simp [decodeDay, ho]⟩
      · by_cases ho : env.openOk d = true
        · exact ⟨.noTimeKey d, by simp [decodeDay, ho, hk]⟩
        · exact ⟨.openFail d, by simp [decodeDay, by simpa using ho]⟩
  · intro k hmem huniq ho
    have hs : (keys.find? (fun kv => isTimeSentinel kv.2)).isSome := by
      rw [List.find?_isSome]
      exact ⟨(k, .str "Time"), hmem, by simp [isTimeSentinel]⟩
    obtain ⟨p, hp⟩ := Option.isSome_iff_exists.1 hs
    have hpm := List.mem_of_find?_eq_some hp
    have hps := List.find?_some hp
    have hpk : p.1 = k := huniq p hpm hps
    have hfk : findIndexKey keys = some k := by
      unfold findIndexKey; rw [hp, Option.map_some']; rw [hpk]
    simp [decodeDay, ho, hfk]

/-- C7, witness: with the minimal mapping and an opening artifact, the
decode step succeeds indexed by the sentinel key. -/
theorem c7_witness : decodeDay envD keysA 0 = .ok [(1, 2)] :=
  (c7_decode envD keysA 0).2 "tkey" (by decide) (by decide) rfl

/-- C8: a `_download` call issued by `_load` for one day spans exactly that
day (midnight to the last microsecond), so its internal day loop runs on
exactly one day; the archive filename it derives from its start time names
that same day, and the rename of an extracted payload file beginning with
the canonical stem recovers exactly the per-day cache filename `_load`
checks (given a one-character probe and an eight-digit date). -/
theorem c8_download_day (probe pid : String) (d : Nat)
    (hp : probe.length = 1) (hy : (ymdStr d).length = 8) :
    daysplitinterval (d * dayLen) (d * dayLen + (dayLen - 1)) = [d] ∧
    download_fname probe pid (d * dayLen) = fnameStem probe pid d ++ ".tar.gz" ∧
    local_fname probe pid d = fnameStem probe pid d ++ ".cdf" ∧
    ∀ suffix, renamed pid (fnameStem probe pid d ++ suffix) =
      local_fname probe pid d :=
  ⟨daysplit_single_day d, download_fname_eq probe pid d, rfl,
   fun suffix => renamed_stem probe pid suffix d hp hy⟩

/-- C8, witness: instantiation for probe 1, the fluxgate product and
2024-01-01 (day 19723). -/
theorem c8_witness :
    daysplitinterval (19723 * dayLen) (19723 * dayLen + (dayLen - 1)) =
      [19723] ∧
    renamed "CP_FGM_FULL"
        (fnameStem "1" "CP_FGM_FULL" 19723 ++ "_20240101_V01.cdf") =
      local_fname "1" "CP_FGM_FULL" 19723 :=
  ⟨(c8_download_day "1" "CP_FGM_FULL" 19723 rfl rfl).1,
   (c8_download_day "1" "CP_FGM_FULL" 19723 rfl rfl).2.2.2
     "_20240101_V01.cdf"⟩

/-- C9: for every probe the `peace_moments` key mapping maps the `Te_perp`
column from the archive field name containing the literal `_...MOMENTS`
characters, and no entry of the mapping names the corresponding
`_CP_PEA_MOMENTS` field. -/
theorem c9_peace_te_perp (probe : String) :
    ("Data_Temperature_ComponentPerpendicularToMagField__C" ++ probe ++
        "_...MOMENTS", CdfVal.str "Te_perp") ∈ peaceKeys probe ∧
    ∀ v, ("Data_Temperature_ComponentPerpendicularToMagField__C" ++ probe ++
        "_CP_PEA_MOMENTS", v) ∉ peaceKeys probe := by
  constructor
  · simp [peaceKeys]
  · intro v hmem
    simp only [peaceKeys, List.mem_cons, List.mem_singleton,
      Prod.mk.injEq, List.not_mem_nil, or_false] at hmem
    rcases hmem with ⟨h, _⟩ | ⟨h, _⟩ | ⟨h, _⟩ | ⟨h, _⟩ | ⟨h, _⟩ | ⟨h, _⟩ <;>
      exact append3_len_ne (by decide) h

/-- C9, witness: instantiation at probe 1. -/
theorem c9_witness :
    ("Data_Temperature_ComponentPerpendicularToMagField__C" ++ "1" ++
        "_...MOMENTS", CdfVal.str "Te_perp") ∈ peaceKeys "1" ∧
    ("Data_Temperature_ComponentPerpendicularToMagField__C" ++ "1" ++
        "_CP_PEA_MOMENTS", CdfVal.str "Te_perp") ∉ peaceKeys "1" :=
  ⟨(c9_peace_te_perp "1").1, (c9_peace_te_perp "1").2 (CdfVal.str "Te_perp")⟩

/-- C10: `_download` threads the module-level `generic_dict` itself (the
local `request_dict` aliases it, so the two date assignments mutate the
shared template): after any successful call the template holds the start
and end timestamps of the most recent day of that call, the last request
url was built from that same mutated template, and any subsequent call in
the process starts from it and leaves it again holding both date entries. -/
theorem c10_generic_dict_mutated (cookie probe pid : String) (s e : Nat)
    (gd : List (String × String)) (hc : cookie ≠ "none") (hse : s ≤ e) :
    ∃ gd2 urls dl,
      _download_state cookie probe pid s e gd = .ok (gd2, urls) ∧
      (daysplitinterval s e).getLast? = some dl ∧
      lookupD gd2 "START_DATE" = some (cdaFmt (dl * dayLen)) ∧
      lookupD gd2 "END_DATE" = some (cdaFmt (dl * dayLen + (dayLen - 1))) ∧
      urls.getLast? = some (csa_url ++ requestStr probe pid gd2) ∧
      (∀ probe2 pid2 s2 e2, s2 ≤ e2 →
        ∃ gd3 urls2 dl2,
          _download_state cookie probe2 pid2 s2 e2 gd2 = .ok (gd3, urls2) ∧
          lookupD gd3 "START_DATE" = some (cdaFmt (dl2 * dayLen)) ∧
          lookupD gd3 "END_DATE" =
            some (cdaFmt (dl2 * dayLen + (dayLen - 1)))) := by
  obtain ⟨gd2, urls, dl, h1, h2, h3, h4, h5⟩ :=
    download_state_ok cookie probe pid s e gd hc hse
  refine ⟨gd2, urls, dl, h1, h2, h3, h4, h5, ?_⟩
  intro probe2 pid2 s2 e2 hse2
  obtain ⟨gd3, urls2, dl2, g1, g2, g3, g4, g5⟩ :=
    download_state_ok cookie probe2 pid2 s2 e2 gd2 hc hse2
  exact ⟨gd3, urls2, dl2, g1, g3, g4⟩

/-- C10, witness: instantiation with a configured cookie and a one-day
interval. -/
theorem c10_witness :
    ∃ gd2 urls dl,
      _download_state "abc" "1" "CP_FGM_FULL" 0 0 (generic_dict "abc") =
        .ok (gd2, urls) ∧
      (daysplitinterval 0 0).getLast? = some dl ∧
      lookupD gd2 "START_DATE" = some (cdaFmt (dl * dayLen)) ∧
      lookupD gd2 "END_DATE" = some (cdaFmt (dl * dayLen + (dayLen - 1))) ∧
      urls.getLast? = some (csa_url ++ requestStr "1" "CP_FGM_FULL" gd2) ∧
      (∀ probe2 pid2 s2 e2, s2 ≤ e2 →
        ∃ gd3 urls2 dl2,
          _download_state "abc" probe2 pid2 s2 e2 gd2 = .ok (gd3, urls2) ∧
          lookupD gd3 "START_DATE" = some (cdaFmt (dl2 * dayLen)) ∧
          lookupD gd3 "END_DATE" =
            some (cdaFmt (dl2 * dayLen + (dayLen - 1)))) :=
  c10_generic_dict_mutated "abc" "1" "CP_FGM_FULL" 0 0 (generic_dict "abc")
    (by decide) (Nat.le_refl 0)

end Heliopy
